import Mathlib

/-!
Shallow embedding of `vedranvuk/commandline` (src/commandline.go)

This file embeds the command/parameter resolution engine of the repository:
the argument classifier (`(*Parser).next`), the recursive command matcher
(`(*Commands).parse`), the parameter-set matcher (`(*Params).parse`), the
registration check (`(*Params).addParam`), and the handler visitation
(`(*Parser).visitCommands`, `(*context).exec`).

Modelling conventions:
* Go maps paired with explicit index slices (`commandmap`/`nameindexes`,
  `longparams`/`longindexes`) are modelled as ordered association lists with
  unique keys; lookup is the first match.
* Go's `shortparams` map aliases the very same `*Param` objects as
  `longparams`; it is modelled as a map from short name to the long name of
  the shared parameter, so that mutating a parameter through either name is
  visible through the other, as in the source.
* The `value interface{}` pointer of a parameter is modelled by a `Bool`
  recording whether a value pointer is bound; the pointed-to Go value is
  external to the engine.  String-to-value conversion (the external
  `strconvex` collaborator called by `stringToGoValue`) is modelled by an
  explicit converter argument `cv : String → Except String Unit`.
* Mutation is modelled by explicit state passing.  `matchedCommands` stores
  snapshots of commands at match time; the only Go aliasing observable after
  a match concerns the root empty-named command, which the model replays by
  refreshing matched entries named `""` whenever that command is re-parsed
  in the global branch, mirroring the shared pointer in the source.
* `(*Commands).parse` is not total on the Go side (see `C2` below), so the
  recursion is given an explicit fuel; `none` is returned when the fuel runs
  out, i.e. when the source would still be recursing.
-/

namespace Commandline

/-- Argument kind, mirroring `argKind` in the source. -/
inductive ArgKind where
  | argInvalid
  | argNone
  | argCommandOrRaw
  | argLong
  | argShort
  | argComb
deriving DecidableEq, Repr

/-- Errors of the engine; one constructor per distinct error site in the
source, carrying the formatted-in arguments.  Handler errors (returned by a
`CommandFunc`) are carried verbatim in `handlerErr`. -/
inductive PError where
  | invalidArgument
  | noArgs
  | commandNotFound (name : String)
  | expectedCommand (kind : ArgKind) (arg : String)
  | invalidName
  | duplicateLongName (long : String)
  | duplicateShortName (short : String)
  | prefixedAfterRaw
  | multipleOptional
  | requiredAfterOptional
  | valueRequired
  | shortParamNotFound (short : String)
  | longParamNotFound (long : String)
  | cannotCombine (short : String)
  | duplicateParam (name : String)
  | requiresValue (name : String)
  | requiredNotSpecified (name : String)
  | noHandlerForArgs
  | convertError (value : String) (msg : String)
  | handlerErr (e : String)
deriving DecidableEq, Repr

/-- The dash-stripping loop inside `(*Parser).next`: strips leading dashes,
upgrading the kind `argNone → argShort → argLong`; a third dash aborts with
`argInvalid` (the source returns `"", argInvalid` immediately there, which
coincides with the post-processing of an empty remainder). -/
def stripDashes : List Char → ArgKind → List Char × ArgKind
  | [], k => ([], k)
  | c :: rest, k =>
    if c = '-' then
      match k with
      | .argNone => stripDashes rest .argShort
      | .argShort => stripDashes rest .argLong
      | _ => ([], .argInvalid)
    else (c :: rest, k)

/-- `(*Parser).next`: classifies the first argument, returning it trimmed of
any prefix dashes together with its kind. -/
def next (args : List String) : String × ArgKind :=
  match args with
  | [] => ("", .argNone)
  | a :: _ =>
    if a.data = [] then ("", .argNone)
    else
      match stripDashes a.data .argNone with
      | (rem, k) =>
        if rem = [] then ("", .argInvalid)
        else
          match k with
          | .argNone => (⟨rem⟩, .argCommandOrRaw)
          | .argShort => if rem.length > 1 then (⟨rem⟩, .argComb) else (⟨rem⟩, .argShort)
          | .argLong => (⟨rem⟩, .argLong)
          | _ => ("", .argInvalid)

/-- `skip`: discards the first argument and reports whether any are left. -/
def skip (args : List String) : List String × Bool :=
  match args with
  | [] => ([], false)
  | _ :: rest => (rest, rest ≠ [])

/-- A command parameter (`Param` in the source).  `value` records whether a
Go value pointer is bound to the parameter (`value interface{} != nil`); the
pointer target itself lives outside the engine. -/
structure Param where
  help : String
  required : Bool
  rawvalue : String
  value : Bool
  raw : Bool
  parsed : Bool
deriving DecidableEq, Repr

/-- `newParam`. -/
def newParam (help : String) (required raw : Bool) (value : Bool) : Param :=
  { help := help, required := required, rawvalue := "", value := value,
    raw := raw, parsed := false }

/-- A parameter set (`Params` in the source).  `longparams` is the ordered
association of long name to parameter (Go's `longparams` map; insertion
order is Go's `longindexes`, which is kept alongside as in the source).
`shortparams` maps a short name to the long name of the parameter it
aliases: in Go both maps hold the same `*Param` pointer, so resolving a
short name through the long map reproduces that aliasing.  The back
pointer `cmd *Command` of the source is supplied by embedding the parse
function on `Command` below. -/
structure Params where
  longparams : List (String × Param)
  shortparams : List (String × String)
  longtoshort : List (String × String)
  longindexes : List String
  rawargs : List String
deriving DecidableEq, Repr

/-- `newParams`. -/
def newParams : Params :=
  { longparams := [], shortparams := [], longtoshort := [],
    longindexes := [], rawargs := [] }

/-- Lookup in Go's `longparams` map. -/
def Params.lookupLong (p : Params) (long : String) : Option Param :=
  (p.longparams.find? (·.1 = long)).map (·.2)

/-- Lookup in Go's `shortparams` map (resolved through the long name of the
aliased parameter). -/
def Params.lookupShort (p : Params) (short : String) : Option (String × Param) :=
  match p.shortparams.find? (·.1 = short) with
  | none => none
  | some (_, long) =>
    match p.lookupLong long with
    | none => none
    | some param => some (long, param)

/-- Writing through the shared `*Param` pointer: replace the parameter
stored under `long`. -/
def Params.setLong (p : Params) (long : String) (param : Param) : Params :=
  { p with longparams := p.longparams.map fun kv => if kv.1 = long then (kv.1, param) else kv }

/-- `(*Params).last`: the last registered parameter, if any. -/
def Params.last (p : Params) : Option Param :=
  match p.longindexes.getLast? with
  | none => none
  | some long => p.lookupLong long

/-- `(*Params).paramCount`. -/
def Params.paramCount (p : Params) : Nat := p.longindexes.length

/-- `(*Params).addParam`, the registration check.  The result mirrors Go's
`(error, receiver)` pair: on error the parameter set is returned exactly as
it was (the source performs all checks before any mutation).  The
`reflect`-based check that a non-nil `value` is a valid pointer is not
representable here: `value : Bool` already stands for "a valid Go value
pointer is bound". -/
def Params.addParam (p : Params) (long short _help : String) (required raw : Bool)
    (value : Bool) : Except PError Unit × Params :=
  -- Long name must not be empty and short name must be max one char long.
  if long = "" ∨ short.length > 1 then (.error .invalidName, p)
  -- No long duplicates.
  else if (p.lookupLong long).isSome then (.error (.duplicateLongName long), p)
  -- No short duplicates if not empty.
  else if ((p.shortparams.find? (·.1 = short)).isSome ∧ short ≠ "") then
    (.error (.duplicateShortName short), p)
  else
    -- Raw params can only be registered after prefixed params.
    -- Optional raw params can only be registered after required raw params.
    let ordered : Except PError Unit :=
      match p.last with
      | some lp =>
        if lp.raw then
          if ¬ raw then .error .prefixedAfterRaw
          else if ¬ lp.required ∧ ¬ required then .error .multipleOptional
          else if ¬ lp.required ∧ required then .error .requiredAfterOptional
          else .ok ()
        else .ok ()
      | none => .ok ()
    match ordered with
    | .error e => (.error e, p)
    | .ok () =>
      -- Required prefixed params need a valid Go value.
      if ¬ value ∧ (¬ raw ∧ required) then (.error .valueRequired, p)
      else
        (.ok (),
          { longparams := p.longparams ++ [(long, newParam _help required raw value)]
            shortparams := p.shortparams ++ (if short ≠ "" then [(short, long)] else [])
            longtoshort := p.longtoshort ++ [(long, short)]
            longindexes := p.longindexes ++ [long]
            rawargs := p.rawargs })

/-- Data visible to a handler through its `Context` (name, executed flag and
the owning command's parameter state); extracted so command handlers need
not mention `Command` itself. -/
structure CtxData where
  name : String
  executed : Bool
  longparams : List (String × Param)
  rawargs : List String

/-- `CommandFunc`: a handler takes its context and returns `some e` for a
non-nil error `e`, `none` for a nil error. -/
def CommandFunc := CtxData → Option String

/-- A command (`Command` in the source): name, help, optional handler,
`executed` scratch flag, its parameter set and its sub-command set.  The
sub-command set (`Commands`, a `commandmap` plus `nameindexes`) is an
ordered association list of unique names. -/
inductive Command where
  | mk (name help : String) (f : Option CommandFunc) (executed : Bool)
      (params : Params) (sub : List (String × Command))

def Command.name : Command → String
  | .mk n _ _ _ _ _ => n

def Command.help : Command → String
  | .mk _ h _ _ _ _ => h

def Command.f : Command → Option CommandFunc
  | .mk _ _ f _ _ _ => f

def Command.executed : Command → Bool
  | .mk _ _ _ e _ _ => e

def Command.params : Command → Params
  | .mk _ _ _ _ p _ => p

def Command.sub : Command → List (String × Command)
  | .mk _ _ _ _ _ s => s

instance : Inhabited Command := ⟨.mk "" "" none false newParams []⟩

/-- Lookup in a `commandmap`. -/
def lookupCmd (c : List (String × Command)) (name : String) : Option Command :=
  (c.find? (·.1 = name)).map (·.2)

/-- In-place update of a `commandmap` entry (Go mutates the shared
`*Command`). -/
def updateCmd (c : List (String × Command)) (name : String) (cmd : Command) :
    List (String × Command) :=
  c.map fun kv => if kv.1 = name then (kv.1, cmd) else kv

/-- The `Context` adapter built around a command (`context` in the source):
Go mutates `cmd.executed` and hands the command to the handler; here the
flag is passed alongside the command's data. -/
def mkCtx (c : Command) (executed : Bool) : CtxData :=
  { name := c.name, executed := executed,
    longparams := c.params.longparams, rawargs := c.params.rawargs }

/-- `(*context).exec` after `visitCommands` set `cmd.executed`: runs the
handler if one is registered, else a nil error. -/
def execR (c : Command) (executed : Bool) : Option String :=
  match c.f with
  | none => none
  | some f => f (mkCtx c executed)

/-- `(*Parser).visitCommands`: visits the matched commands in order, the
last one with `executed = true`, stopping at the first handler error. -/
def visit : List Command → Except PError Unit
  | [] => .ok ()
  | [c] =>
    match execR c true with
    | some e => .error (.handlerErr e)
    | none => .ok ()
  | c :: c' :: rest =>
    match execR c false with
    | some e => .error (.handlerErr e)
    | none => visit (c' :: rest)

/-- The handler invocations `visit` performs, in order: one `(name, flag)`
entry per command with a registered handler. -/
def traceEntry (c : Command) (executed : Bool) : List (String × Bool) :=
  if c.f.isSome then [(c.name, executed)] else []

/-- Instrumented `visitCommands`: same visitation as `visit`, additionally
recording the handler invocations it performs (`visitTrace_visit` below
relates the two). -/
def visitTrace : List Command → List (String × Bool) × Except PError Unit
  | [] => ([], .ok ())
  | [c] =>
    match execR c true with
    | some e => (traceEntry c true, .error (.handlerErr e))
    | none => (traceEntry c true, .ok ())
  | c :: c' :: rest =>
    match execR c false with
    | some e => (traceEntry c false, .error (.handlerErr e))
    | none =>
      match visitTrace (c' :: rest) with
      | (tr, r) => (traceEntry c false ++ tr, r)

/-- Modelled from the spec (§4.4 Visitation/Execution), for comparison with
the source-derived `visitTrace`: handlers run in chain order; the invocation
at position `i` of `n` observes `executed = (i = n - 1)`; a non-nil handler
error aborts the chain and becomes the result. -/
def visitSpecAux (n : Nat) : Nat → List Command → List (String × Bool) × Except PError Unit
  | _, [] => ([], .ok ())
  | i, c :: rest =>
    let ex := decide (i = n - 1)
    match execR c ex with
    | some e => (traceEntry c ex, .error (.handlerErr e))
    | none =>
      match visitSpecAux n (i + 1) rest with
      | (tr, r) => (traceEntry c ex ++ tr, r)

/-- Modelled from the spec: the visitation contract of §4.4. -/
def visitSpec (ms : List Command) : List (String × Bool) × Except PError Unit :=
  visitSpecAux ms.length 0 ms

/-- The converter collaborator (`stringToGoValue` delegates to the external
`strconvex` package): success or an error message. -/
def Conv := String → Except String Unit

/-- The inner scan of the `argCommandOrRaw` case of `(*Params).parse`:
advance `i` past non-raw parameters to the first raw one (or to `count`). -/
def skipToRaw (ps : Params) (count : Nat) (i : Nat) : Nat :=
  if _h : i < count then
    match ps.longindexes.get? i with
    | some long =>
      match ps.lookupLong long with
      | some param => if ¬ param.raw then skipToRaw ps count (i + 1) else i
      | none => i
    | none => i
  else i
termination_by count - i
decreasing_by omega

/-- `p.longparams[p.longindexes[i]]` with its long name. -/
def getParamAt (ps : Params) (i : Nat) : Option (String × Param) :=
  match ps.longindexes.get? i with
  | none => none
  | some long => (ps.lookupLong long).map fun p => (long, p)

/-- The required-parameters check at the end of `(*Params).parse`.  Go
iterates the `longparams` map in unspecified order; the model iterates in
registration order, which only fixes which of several unparsed required
parameters gets named in the error. -/
def checkParams (ps : Params) (args : List String) : Except PError (Params × List String) :=
  match ps.longindexes.find? (fun l =>
      match ps.lookupLong l with
      | some p => p.required && !p.parsed
      | none => false) with
  | some l => .error (.requiredNotSpecified l)
  | none => .ok (ps, args)

/-- The `argComb` inner loop of `(*Params).parse`: each character is a short
name that must resolve to a value-less, not-yet-parsed parameter; all are
marked parsed and `i` advances once per character. -/
def combLoop (ps : Params) (i : Nat) : List Char → Except PError (Params × Nat)
  | [] => .ok (ps, i)
  | ch :: rest =>
    let short : String := ⟨[ch]⟩
    match ps.lookupShort short with
    | none => .error (.shortParamNotFound short)
    | some (long, param) =>
      if param.value then .error (.cannotCombine short)
      else if param.parsed then .error (.duplicateParam short)
      else combLoop (ps.setLong long { param with parsed := true }) (i + 1) rest

/-- The common tail of a (non-combined) parameter match in
`(*Params).parse`: duplicate check, optional value consumption and
conversion, then recording `rawvalue`/`parsed`.  `arg` is the token trimmed
of prefixes (for raw parameters, the token itself); `rest` are the
arguments after the current token.  Returns the updated set and whether a
value token was additionally consumed from `rest`; the source's trailing
`if !cl.skip() break` is performed by the caller. -/
def afterMatch (cv : Conv) (ps : Params) (long arg : String) (param : Param)
    (rest : List String) : Except PError (Params × Bool) :=
  -- Param is specified multiple times.
  if param.parsed then .error (.duplicateParam arg)
  else
    let record : String → Params := fun v =>
      ps.setLong long { param with rawvalue := v, parsed := true }
    if param.value then
      if ¬ param.raw then
        -- Advance argument for prefixed params; the next token is the value.
        match rest with
        | [] => .error (.requiresValue arg)
        | v :: _ =>
          match cv v with
          | .error msg => .error (.convertError v msg)
          | .ok () => .ok (record v, true)
      else
        -- Raw params take the current token as their value.
        match cv arg with
        | .error msg => .error (.convertError arg msg)
        | .ok () => .ok (record arg, false)
    else .ok (record arg, false)

/-- The main loop of `(*Params).parse`, over the parameter cursor `i` (the
source's `for i := 0; i < count;`).  Each continuing iteration consumes at
least one token, which bounds the recursion by the argument list. -/
def paramsLoop (cv : Conv) (count : Nat) (ps : Params) (args : List String)
    (i : Nat) : Except PError (Params × List String) :=
  if i < count then
    match args with
    | [] => checkParams ps []
    | a :: rest =>
      match next (a :: rest) with
      | (_, .argInvalid) => .error .invalidArgument
      | (_, .argNone) => checkParams ps (a :: rest)
      | (_, .argCommandOrRaw) =>
        -- Only raw params possibly accept non-prefixed arguments.
        let i' := skipToRaw ps count i
        -- If there are no (more) raw params defined, return to Command
        -- parsing (note: the source returns here without the required check).
        if i' ≥ count then .ok (ps, a :: rest)
        else
          match getParamAt ps i' with
          | none => .error .invalidArgument
          | some (long, param) =>
            match afterMatch cv ps long a param rest with
            | .error e => .error e
            | .ok (ps', two) =>
              let rest' := if two then rest.drop 1 else rest
              if rest' = [] then checkParams ps' rest'
              else paramsLoop cv count ps' rest' (i' + 1)
      | (s, .argShort) =>
        match ps.lookupShort s with
        | none => .error (.shortParamNotFound s)
        | some (long, param) =>
          match afterMatch cv ps long s param rest with
          | .error e => .error e
          | .ok (ps', two) =>
            let rest' := if two then rest.drop 1 else rest
            if rest' = [] then checkParams ps' rest'
            else paramsLoop cv count ps' rest' (i + 1)
      | (l, .argLong) =>
        match ps.lookupLong l with
        | none => .error (.longParamNotFound l)
        | some param =>
          match afterMatch cv ps l l param rest with
          | .error e => .error e
          | .ok (ps', two) =>
            let rest' := if two then rest.drop 1 else rest
            if rest' = [] then checkParams ps' rest'
            else paramsLoop cv count ps' rest' (i + 1)
      | (w, .argComb) =>
        match combLoop ps i w.data with
        | .error e => .error e
        | .ok (ps', i') =>
          -- Parse all combined args, skip the token as a unit and continue.
          paramsLoop cv count ps' rest i'
  else checkParams ps args
termination_by args.length
decreasing_by
  all_goals simp_all [List.length_drop]
  all_goals split <;> simp <;> omega

/-- Replace a command's parameter set (Go mutates in place). -/
def Command.withParams : Command → Params → Command
  | .mk n h f e _ s, ps => .mk n h f e ps s

/-- `(*Command).paramCount` through the anonymous `Params` field. -/
def Command.paramCount (c : Command) : Nat := c.params.paramCount

/-- `(*Params).parse`, embedded at the `Command` level because the source
reaches the owning command through the `cmd` back pointer: with no defined
parameters and no sub-commands, the remaining tokens are stored verbatim as
raw arguments and a handler is required; otherwise the main loop runs. -/
def Command.paramsParse (cmd : Command) (cv : Conv) (args : List String) :
    Except PError (Command × List String) :=
  let ps := cmd.params
  let count := ps.paramCount
  -- No defined params.
  if count = 0 then
    -- Last Command in chain.
    if cmd.sub.isEmpty then
      let ps' := if args ≠ [] then { ps with rawargs := ps.rawargs ++ args } else ps
      -- Last command in chain must have a handler.
      match cmd.f with
      | none => .error .noHandlerForArgs
      | some _ => .ok (cmd.withParams ps', args)
    else .ok (cmd, args)
  else
    match paramsLoop cv count ps args 0 with
    | .error e => .error e
    | .ok (ps', args') => .ok (cmd.withParams ps', args')

/-- Parse-session state: the remaining tokens and the matched chain.
`matched` stores the commands as they were at match time; entries named
`""` are refreshed whenever the root empty-named command is re-parsed,
mirroring the shared `*Command` pointer in the source. -/
structure St where
  args : List String
  matched : List Command

/-- `(*Commands).parse`, the recursive matcher.  The source recursion does
not always terminate (see claim C2), so it is driven by explicit fuel;
`none` means the fuel was exhausted while the source would still recurse. -/
def parseF (cv : Conv) (fuel : Nat) (c : List (String × Command)) (st : St) :
    Option (Except PError St) :=
  if fuel = 0 then none
  else
    match next st.args with
    | (_, .argInvalid) => some (.error .invalidArgument)
    | (_, .argNone) =>
      -- Execute last matched Command; otherwise nothing was matched so far.
      if st.matched.isEmpty then some (.error .noArgs)
      else some ((visit st.matched).map fun _ => st)
    | (a, .argCommandOrRaw) =>
      match lookupCmd c a with
      | some cmd =>
        match cmd.paramsParse cv (skip st.args).1 with
        | .error e => some (.error e)
        | .ok (cmd', args') =>
          parseF cv (fuel - 1) cmd'.sub { args := args', matched := st.matched ++ [cmd'] }
      | none =>
        -- See if last matched command has no defined params and execute it
        -- with stored raw params; else this is extra.
        match st.matched.getLast? with
        | some last =>
          if last.f.isSome ∧ last.paramCount = 0 then
            some ((visit st.matched).map fun _ => st)
          else some (.error (.commandNotFound a))
        | none => some (.error (.commandNotFound a))
    | (w, k) =>
      -- Arg is not a Command, but a Param: special case of the single
      -- unnamed root command; the token is not consumed.
      match lookupCmd c "" with
      | none => some (.error (.expectedCommand k w))
      | some cmd =>
        match cmd.paramsParse cv st.args with
        | .error e => some (.error e)
        | .ok (cmd', args') =>
          parseF cv (fuel - 1) (updateCmd c "" cmd')
            { args := args'
              matched := (st.matched.map fun m => if m.name = "" then cmd' else m) ++ [cmd'] }
termination_by fuel
decreasing_by all_goals omega

/-- `resetCommands` on one command: clears `executed`, stored raw arguments
and every parameter's `parsed`/`rawvalue`, recursively. -/
def Command.reset : Command → Command
  | .mk n h f _ ps sub =>
    .mk n h f false
      { ps with
        longparams := ps.longparams.map fun kv =>
          (kv.1, { kv.2 with parsed := false, rawvalue := "" })
        rawargs := [] }
      (sub.attach.map fun x => (x.1.1, Command.reset x.1.2))
termination_by c => sizeOf c
decreasing_by
  obtain ⟨⟨a, b⟩, hmem⟩ := x
  have h1 := List.sizeOf_lt_of_mem hmem
  simp at h1 ⊢
  omega

/-- `(*Parser).Parse`: resets the tree and the matched chain, then parses.
The final session state is returned alongside the source's error result so
that the matched chain (kept in the parser in Go) stays observable. -/
def Parse (cv : Conv) (fuel : Nat) (root : List (String × Command))
    (args : List String) : Option (Except PError St) :=
  parseF cv fuel (root.map fun kv => (kv.1, kv.2.reset)) { args := args, matched := [] }

/-- Names of the matched chain, in match order. -/
def matchedNames (st : St) : List String := st.matched.map Command.name

/-- `(parsed, rawvalue)` of parameter `long` of the `i`-th matched command. -/
def paramView (st : St) (i : Nat) (long : String) : Option (Bool × String) :=
  match st.matched.get? i with
  | none => none
  | some c => (c.params.lookupLong long).map fun p => (p.parsed, p.rawvalue)

/-- Stored raw arguments of the `i`-th matched command. -/
def rawargsAt (st : St) (i : Nat) : Option (List String) :=
  (st.matched.get? i).map fun c => c.params.rawargs

/-- Count of leading dashes of a token (spec §4.1's `n`). -/
def leadingDashes : List Char → Nat
  | '-' :: rest => leadingDashes rest + 1
  | _ => 0

/-- Whether an `Except` result is an error. -/
def isErr {α : Type} : Except PError α → Bool
  | .error _ => true
  | .ok _ => false

/-! Concrete scenario material used by the claims. -/

/-- The always-succeeding converter (e.g. conversion into a Go `string`). -/
def cvOk : Conv := fun _ => .ok ()

/-- A value-less optional prefixed parameter (a plain flag). -/
def flagParam : Param := newParam "" false false false

/-- An optional prefixed parameter with a bound value. -/
def valParam : Param := newParam "" false false true

/-- A handler that returns a nil error. -/
def handlerNil : CommandFunc := fun _ => none

/-- C1: the prefixed parameter `x` of command `a`, value-bearing. -/
def c1ParamX (rx : Bool) : Param := newParam "" rx false true

/-- C1: the raw parameter `y` of command `b`. -/
def c1ParamY (ry : Bool) : Param := newParam "" ry true false

/-- C1: parameter set of command `a`. -/
def c1ParamsA (rx : Bool) : Params :=
  { longparams := [("x", c1ParamX rx)], shortparams := [], longtoshort := [("x", "")],
    longindexes := ["x"], rawargs := [] }

/-- C1: parameter set of command `b`. -/
def c1ParamsB (ry : Bool) : Params :=
  { longparams := [("y", c1ParamY ry)], shortparams := [], longtoshort := [("y", "")],
    longindexes := ["y"], rawargs := [] }

/-- C1: the child command `b`. -/
def c1CmdB (ry : Bool) : Command := .mk "b" "" none false (c1ParamsB ry) []

/-- C1: the root command `a` with child `b`. -/
def c1CmdA (rx ry : Bool) : Command := .mk "a" "" none false (c1ParamsA rx) [("b", c1CmdB ry)]

/-- C1: the command tree of the round-trip claim, generic in the two
required flags. -/
def c1Root (rx ry : Bool) : List (String × Command) := [("a", c1CmdA rx ry)]

/-- C2: an empty-named command with no parameters, no sub-commands and a
handler — the configuration on which the global branch of
`(*Commands).parse` consumes no token. -/
def c2Cmd (hnd : CommandFunc) (ra : List String) : Command :=
  .mk "" "" (some hnd) false { newParams with rawargs := ra } []

/-- C4: a parameter set with the single flag `verbose`. -/
def verboseParams : Params :=
  { longparams := [("verbose", flagParam)], shortparams := [], longtoshort := [("verbose", "")],
    longindexes := ["verbose"], rawargs := [] }

/-- C4: the empty-named root command owning `--verbose`. -/
def emptyRootCmd : Command := .mk "" "" none false verboseParams []

/-- C4: a sibling named command with a handler. -/
def namedCmd : Command := .mk "cmd" "" (some handlerNil) false newParams []

/-- C4: a named-only command (so the empty name is not registered). -/
def namedOnlyCmd : Command := .mk "z" "" none false verboseParams []

/-- C6: a command with no declared parameters and a handler. -/
def noParamsCmd : Command := .mk "c" "" (some handlerNil) false newParams []

/-- C6: a plain sub-command. -/
def subLeafCmd : Command := .mk "s" "" none false newParams []

/-- C6: a command with no declared parameters, a handler and a sub-command
(legal to build: registering `c` and then a sub-command on `c`). -/
def parentWithSubCmd : Command :=
  .mk "c" "" (some handlerNil) false newParams [("s", subLeafCmd)]

/-- C7: shorts `a` `b` `c` are flags, `x` is value-bearing. -/
def comboParams : Params :=
  { longparams := [("alpha", flagParam), ("beta", flagParam), ("gamma", flagParam), ("ex", valParam)]
    shortparams := [("a", "alpha"), ("b", "beta"), ("c", "gamma"), ("x", "ex")]
    longtoshort := [("alpha", "a"), ("beta", "b"), ("gamma", "c"), ("ex", "x")]
    longindexes := ["alpha", "beta", "gamma", "ex"], rawargs := [] }

/-- C7: the command owning `comboParams`. -/
def comboCmd : Command := .mk "s" "" none false comboParams []

/-- C9: an optional raw parameter. -/
def rawOptParam : Param := newParam "" false true false

/-- C9: a parameter set whose last registered parameter is an optional raw
parameter. -/
def psLastRawOpt : Params :=
  { longparams := [("r", rawOptParam)], shortparams := [], longtoshort := [("r", "")],
    longindexes := ["r"], rawargs := [] }

/-! Helper lemmas. -/

/-- The instrumented visitation computes the same result as
`visitCommands`. -/
theorem visitTrace_visit : ∀ ms : List Command, (visitTrace ms).2 = visit ms := by
  intro ms
  match ms with
  | [] => simp [visitTrace, visit]
  | [c] =>
    cases hE : execR c true <;> simp [visitTrace, visit, hE]
  | c :: c' :: rest =>
    cases hE : execR c false <;>
      simp [visitTrace, visit, hE, visitTrace_visit (c' :: rest)]

/-- The spec-side visitation with a running index agrees with the
source-side instrumented visitation. -/
theorem visitSpecAux_eq : ∀ (ms : List Command) (i n : Nat), n = i + ms.length →
    visitSpecAux n i ms = visitTrace ms := by
  intro ms
  match ms with
  | [] => intro i n _; simp [visitSpecAux, visitTrace]
  | [c] =>
    intro i n hn
    have h1 : (i = n - 1) = True :=
      eq_true (by simp only [List.length_cons, List.length_nil] at hn; omega)
    conv_lhs => rw [visitSpecAux]
    conv_rhs => rw [visitTrace]
    simp only [h1, decide_True]
    cases hE : execR c true <;> simp [hE, visitSpecAux]
  | c :: c' :: rest =>
    intro i n hn
    have h1 : (i = n - 1) = False :=
      eq_false (by simp only [List.length_cons] at hn; omega)
    have hn' : n = (i + 1) + (c' :: rest).length := by
      simp only [List.length_cons] at hn ⊢
      omega
    have ih := visitSpecAux_eq (c' :: rest) (i + 1) n hn'
    conv_lhs => rw [visitSpecAux]
    conv_rhs => rw [visitTrace]
    simp only [h1, decide_False]
    rw [ih]

/-- On the divergent configuration of claim C2 the matcher consumes no fuel
progresses nothing: the recursion never produces a result, whatever the
matched chain and previously stored raw arguments are. -/
theorem parseF_globalLoop_none (hnd : CommandFunc) (cv : Conv) :
    ∀ (fuel : Nat) (m : List Command) (ra : List String),
      parseF cv fuel [("", c2Cmd hnd ra)] { args := ["-x"], matched := m } = none := by
  intro fuel
  induction fuel with
  | zero => intro m ra; simp [parseF]
  | succ n ih =>
    intro m ra
    rw [parseF]
    simp [next, stripDashes, lookupCmd, Command.paramsParse, Command.withParams,
      Command.sub, Command.f, Command.params, Params.paramCount, newParams, c2Cmd,
      updateCmd, List.find?]
    exact ih _ _

/-! Claims. -/

/-- C1: for every tree with root command `a` owning a value-bearing
prefixed parameter `x` and child command `b` owning one raw parameter `y`
(any required flags, any converter accepting `"val"`),
`Parse ["a", "--x", "val", "b", "y"]` succeeds, the matched chain is
exactly `[a, b]`, `a`'s parameter `x` is parsed with captured literal
`"val"`, and `b`'s raw parameter is parsed with captured value `"y"`. -/
theorem C1_roundtrip (rx ry : Bool) (cv : Conv) (h : cv "val" = Except.ok ()) :
    (Parse cv 9 (c1Root rx ry) ["a", "--x", "val", "b", "y"]).map
      (fun r => r.map fun st => (matchedNames st, paramView st 0 "x", paramView st 1 "y"))
      = some (.ok (["a", "b"], some (true, "val"), some (true, "y"))) := by
  cases rx <;> cases ry <;>
    simp [Parse, parseF, next, stripDashes, skip, lookupCmd, updateCmd, Command.paramsParse,
      Command.withParams, Command.sub, Command.f, Command.name, Command.params, Command.reset,
      Command.paramCount, Params.paramCount, paramsLoop, afterMatch, skipToRaw, getParamAt,
      checkParams, combLoop, Params.lookupLong, Params.lookupShort, Params.setLong, newParam,
      newParams, c1Root, c1CmdA, c1CmdB, c1ParamsA, c1ParamsB, c1ParamX, c1ParamY,
      visit, execR, matchedNames, paramView, rawargsAt, h, List.find?, List.attach,
      Except.map, Option.map, List.get?]

/-- Witness for C1 at concrete inputs (both parameters required, the
always-succeeding converter). -/
theorem C1_roundtrip_witness :
    cvOk "val" = Except.ok () ∧
    (Parse cvOk 9 (c1Root true true) ["a", "--x", "val", "b", "y"]).map
      (fun r => r.map fun st => (matchedNames st, paramView st 0 "x", paramView st 1 "y"))
      = some (.ok (["a", "b"], some (true, "val"), some (true, "y"))) :=
  ⟨rfl, C1_roundtrip true true cvOk rfl⟩

/-- C2: the claim says `Parse` always terminates because each successful
resolution branch consumes at least one token.  It does not: when the
empty-named root command has no parameters, the global branch consumes no
token and `(*Commands).parse` recurses on the very same arguments forever.
In the fuel model, no amount of fuel produces a result on
`Parse ["-x"]` against such a tree. -/
theorem C2_parse_diverges (hnd : CommandFunc) (cv : Conv) (fuel : Nat) :
    Parse cv fuel [("", c2Cmd hnd [])] ["-x"] = none := by
  have h := parseF_globalLoop_none hnd cv fuel [] []
  simpa [Parse, Command.reset, c2Cmd, newParams, List.attach] using h

/-- C3: after a full resolution the matched handlers are invoked in chain
order root-to-leaf, every invocation except the last observing
`executed = false` and the last `executed = true`, stopping at the first
handler error which becomes the result (the trace of the source visitation
equals the spec-side contract `visitSpec`); the visitation result is the
value `(*Commands).parse` returns when the tokens run out with a non-empty
matched chain, i.e. the return value of the top-level `Parse`. -/
theorem C3_visitation :
    (∀ ms : List Command, visitTrace ms = visitSpec ms) ∧
    (∀ ms : List Command, (visitTrace ms).2 = visit ms) ∧
    (∀ (cv : Conv) (fuel : Nat) (c : List (String × Command)) (st : St),
      (next st.args).2 = .argNone → st.matched.isEmpty = false →
      parseF cv (fuel + 1) c st = some ((visit st.matched).map fun _ => st)) := by
  refine ⟨?_, visitTrace_visit, ?_⟩
  · intro ms
    exact (visitSpecAux_eq ms 0 ms.length (by omega)).symm
  · intro cv fuel c st h hm
    rcases hn : next st.args with ⟨a, k⟩
    rw [hn] at h
    simp only at h
    subst h
    rw [parseF, hn]
    simp [hm]

/-- Witness for C3: a concrete chain and a concrete exhausted-token parse
state. -/
theorem C3_visitation_witness :
    visitTrace [namedCmd, noParamsCmd] = visitSpec [namedCmd, noParamsCmd] ∧
    parseF cvOk 1 [] { args := [], matched := [namedCmd] } =
      some ((visit [namedCmd]).map fun _ => ({ args := [], matched := [namedCmd] } : St)) :=
  ⟨C3_visitation.1 [namedCmd, noParamsCmd],
   C3_visitation.2.2 cvOk 0 [] { args := [], matched := [namedCmd] } rfl rfl⟩

/-- C4: a parameter-looking token at command level resolves the empty-named
command: without one, `Parse ["--verbose"]` fails with the
expected-command error; with one, `Parse ["--verbose"]` succeeds matching
only the empty command (whose `verbose` parameter receives the unconsumed
token), and `Parse ["--verbose", "cmd"]` with a sibling `cmd` matches both,
in order `["", "cmd"]`. -/
theorem C4_global_resolution :
    (Parse cvOk 5 [("z", namedOnlyCmd)] ["--verbose"]).map (fun r => r.map matchedNames)
      = some (.error (.expectedCommand .argLong "verbose")) ∧
    (Parse cvOk 5 [("", emptyRootCmd)] ["--verbose"]).map
        (fun r => r.map fun st => (matchedNames st, paramView st 0 "verbose"))
      = some (.ok ([""], some (true, "verbose"))) ∧
    (Parse cvOk 5 [("", emptyRootCmd), ("cmd", namedCmd)] ["--verbose", "cmd"]).map
        (fun r => r.map matchedNames)
      = some (.ok ["", "cmd"]) := by
  refine ⟨?_, ?_, ?_⟩ <;>
    simp [Parse, parseF, next, stripDashes, skip, lookupCmd, updateCmd, Command.paramsParse,
      Command.withParams, Command.sub, Command.f, Command.name, Command.params, Command.reset,
      Command.paramCount, Params.paramCount, paramsLoop, afterMatch, skipToRaw, getParamAt,
      checkParams, combLoop, Params.lookupLong, Params.lookupShort, Params.setLong, newParam,
      newParams, visit, execR, matchedNames, paramView, rawargsAt, List.find?, List.attach,
      Except.map, Option.map, List.get?, cvOk, flagParam, verboseParams, emptyRootCmd,
      handlerNil, namedCmd, namedOnlyCmd]

/-- C5 counterexample: the claim says an empty tree accepts empty input
without error, but `Parse []` on a tree with no registered commands
returns the no-arguments error — the source has no registered-commands
check in the `argNone` branch. -/
theorem C5_counterexample :
    Parse cvOk 3 [] [] = some (.error .noArgs) := by
  simp [Parse, parseF, next]

/-- C5 (amended): when classification of the next token yields `None`, if
at least one command was matched at any level `(*Commands).parse` completes
returning the handler visitation result; otherwise it returns the
no-arguments error regardless of whether the tree has any registered
command. -/
theorem C5_amended_none_branch (cv : Conv) (fuel : Nat)
    (c : List (String × Command)) (st : St)
    (h : (next st.args).2 = .argNone) :
    parseF cv (fuel + 1) c st =
      some (if st.matched.isEmpty then .error .noArgs
            else (visit st.matched).map fun _ => st) := by
  rcases hn : next st.args with ⟨a, k⟩
  rw [hn] at h
  simp only at h
  subst h
  rw [parseF, hn]
  by_cases hm : st.matched.isEmpty <;> simp [hm]

/-- Witness for C5 (amended): empty input, one already-matched command. -/
theorem C5_amended_none_branch_witness :
    parseF cvOk 1 [] { args := [], matched := [namedCmd] } =
      some (if ([namedCmd]).isEmpty then .error .noArgs
            else (visit [namedCmd]).map fun _ => ({ args := [], matched := [namedCmd] } : St)) :=
  C5_amended_none_branch cvOk 0 [] { args := [], matched := [namedCmd] } rfl

/-- C6 counterexample: the claim promises that the remaining tokens are
treated as raw arguments for the zero-parameter, handler-bearing ancestor,
but when that ancestor has sub-commands the fallback still succeeds while
its raw arguments stay empty — the remainder `["x"]` is dropped
(`(*Params).parse` stores the remainder only when `commandmap` is empty,
while the fallback fires on merely `f != nil && paramCount() == 0`). -/
theorem C6_counterexample :
    (Parse cvOk 5 [("c", parentWithSubCmd)] ["c", "x"]).map
      (fun r => r.map fun st => (matchedNames st, rawargsAt st 0))
      = some (.ok (["c"], some [])) ∧
    (Parse cvOk 5 [("c", parentWithSubCmd)] ["c", "x"]).map
      (fun r => r.map fun st => (matchedNames st, rawargsAt st 0))
      ≠ some (.ok (["c"], some ["x"])) := by
  constructor <;>
    simp [Parse, parseF, next, stripDashes, skip, lookupCmd, updateCmd, Command.paramsParse,
      Command.withParams, Command.sub, Command.f, Command.name, Command.params, Command.reset,
      Command.paramCount, Params.paramCount, paramsLoop, afterMatch, skipToRaw, getParamAt,
      checkParams, combLoop, Params.lookupLong, Params.lookupShort, Params.setLong, newParam,
      newParams, visit, execR, matchedNames, paramView, rawargsAt, List.find?, List.attach,
      Except.map, Option.map, List.get?, cvOk, handlerNil, parentWithSubCmd, subLeafCmd]

/-- C6 (amended): a `TextOrCommand` token not found in the current scope
normally fails with the command-not-found error, UNLESS the last matched
command declares zero parameters and has a handler — then
`(*Commands).parse` returns the visitation of the matched chain instead of
failing (first conjunct).  The remainder was captured as that command's raw
arguments at its match time only when it has no sub-commands: a leaf
command absorbs the whole remainder (second conjunct), while a command
with sub-commands succeeds with its raw arguments left empty, the
remainder dropped (third conjunct). -/
theorem C6_amended_fallback :
    (∀ (cv : Conv) (fuel : Nat) (c : List (String × Command)) (st : St)
      (w : String) (last : Command),
      next st.args = (w, .argCommandOrRaw) → lookupCmd c w = none →
      st.matched.getLast? = some last →
      last.f.isSome = true → last.paramCount = 0 →
      parseF cv (fuel + 1) c st = some ((visit st.matched).map fun _ => st)) ∧
    (Parse cvOk 5 [("c", noParamsCmd)] ["c", "x", "y"]).map
      (fun r => r.map fun st => (matchedNames st, rawargsAt st 0))
      = some (.ok (["c"], some ["x", "y"])) ∧
    (Parse cvOk 5 [("c", parentWithSubCmd)] ["c", "x"]).map
      (fun r => r.map fun st => (matchedNames st, rawargsAt st 0))
      = some (.ok (["c"], some [])) := by
  refine ⟨?_, ?_, ?_⟩
  · intro cv fuel c st w last hk hnf hl hf hp
    rw [parseF]
    simp [hk, hnf, hl, hf, hp]
  · simp [Parse, parseF, next, stripDashes, skip, lookupCmd, updateCmd, Command.paramsParse,
      Command.withParams, Command.sub, Command.f, Command.name, Command.params, Command.reset,
      Command.paramCount, Params.paramCount, paramsLoop, afterMatch, skipToRaw, getParamAt,
      checkParams, combLoop, Params.lookupLong, Params.lookupShort, Params.setLong, newParam,
      newParams, visit, execR, matchedNames, paramView, rawargsAt, List.find?, List.attach,
      Except.map, Option.map, List.get?, cvOk, handlerNil, noParamsCmd]
  · simp [Parse, parseF, next, stripDashes, skip, lookupCmd, updateCmd, Command.paramsParse,
      Command.withParams, Command.sub, Command.f, Command.name, Command.params, Command.reset,
      Command.paramCount, Params.paramCount, paramsLoop, afterMatch, skipToRaw, getParamAt,
      checkParams, combLoop, Params.lookupLong, Params.lookupShort, Params.setLong, newParam,
      newParams, visit, execR, matchedNames, paramView, rawargsAt, List.find?, List.attach,
      Except.map, Option.map, List.get?, cvOk, handlerNil, parentWithSubCmd, subLeafCmd]

/-- Witness for C6 (amended) at a concrete state: scope without `"x"`,
last matched command `noParamsCmd`. -/
theorem C6_amended_fallback_witness :
    parseF cvOk 1 [] { args := ["x"], matched := [noParamsCmd] } =
      some ((visit [noParamsCmd]).map fun _ =>
        ({ args := ["x"], matched := [noParamsCmd] } : St)) :=
  C6_amended_fallback.1 cvOk 0 [] { args := ["x"], matched := [noParamsCmd] }
    "x" noParamsCmd rfl rfl rfl rfl rfl

/-- C7: in a combined-short token each character must name a registered,
value-less, not-yet-parsed short parameter: `"-abc"` marks all three flags
parsed consuming the token as one unit; `"-aa"` fails as a duplicate; a
value-bearing short in the combination fails as not combinable; an unknown
short fails as not found; a short already parsed by an earlier token also
fails as a duplicate. -/
theorem C7_combined_shorts :
    ((comboCmd.paramsParse cvOk ["-abc"]).map fun p =>
       (p.2, ((p.1.params.lookupLong "alpha").map Param.parsed),
        ((p.1.params.lookupLong "beta").map Param.parsed),
        ((p.1.params.lookupLong "gamma").map Param.parsed)))
      = .ok ([], some true, some true, some true) ∧
    (comboCmd.paramsParse cvOk ["-aa"]).map (fun _ => ())
      = .error (.duplicateParam "a") ∧
    (comboCmd.paramsParse cvOk ["-ax"]).map (fun _ => ())
      = .error (.cannotCombine "x") ∧
    (comboCmd.paramsParse cvOk ["-aq"]).map (fun _ => ())
      = .error (.shortParamNotFound "q") ∧
    (comboCmd.paramsParse cvOk ["-a", "-ab"]).map (fun _ => ())
      = .error (.duplicateParam "a") := by
  refine ⟨?_, ?_, ?_, ?_, ?_⟩ <;>
    simp [Parse, parseF, next, stripDashes, skip, lookupCmd, updateCmd, Command.paramsParse,
      Command.withParams, Command.sub, Command.f, Command.name, Command.params, Command.reset,
      Command.paramCount, Params.paramCount, paramsLoop, afterMatch, skipToRaw, getParamAt,
      checkParams, combLoop, Params.lookupLong, Params.lookupShort, Params.setLong, newParam,
      newParams, visit, execR, matchedNames, paramView, rawargsAt, List.find?, List.attach,
      Except.map, Option.map, List.get?, cvOk, flagParam, valParam, comboParams, comboCmd]

/-- C8 counterexample: the claim's `n = 0` case promises `TextOrCommand`
with the token unmodified for every token, but the empty token (zero
leading dashes) classifies as `None`, not `TextOrCommand`. -/
theorem C8_counterexample :
    leadingDashes "".data = 0 ∧ next [""] = ("", .argNone) ∧
    next [""] ≠ ("", .argCommandOrRaw) := by
  refine ⟨rfl, rfl, ?_⟩
  decide

/-- C8 (amended): the classifier behaves as claimed on every non-empty
token — `n = 0` leading dashes yields `TextOrCommand` unmodified, `n = 1`
yields `Short`/`CombinedShort` by remainder length, `n = 2` with non-empty
remainder yields `Long`, `n ≥ 3` or an empty remainder for `n ∈ {1, 2}`
yields `Invalid` — while the empty token, like the empty token list,
yields `None`. -/
theorem C8_amended_classifier : next [] = ("", .argNone) ∧
    ∀ (tok : String) (rest : List String),
      (tok.data = [] → next (tok :: rest) = ("", .argNone)) ∧
      (leadingDashes tok.data = 0 → tok.data ≠ [] →
        next (tok :: rest) = (tok, .argCommandOrRaw)) ∧
      (leadingDashes tok.data = 1 → (tok.data.drop 1).length = 1 →
        next (tok :: rest) = (⟨tok.data.drop 1⟩, .argShort)) ∧
      (leadingDashes tok.data = 1 → 1 < (tok.data.drop 1).length →
        next (tok :: rest) = (⟨tok.data.drop 1⟩, .argComb)) ∧
      (leadingDashes tok.data = 2 → tok.data.drop 2 ≠ [] →
        next (tok :: rest) = (⟨tok.data.drop 2⟩, .argLong)) ∧
      (3 ≤ leadingDashes tok.data ∨
        (leadingDashes tok.data = 1 ∧ tok.data.drop 1 = []) ∨
        (leadingDashes tok.data = 2 ∧ tok.data.drop 2 = []) →
        next (tok :: rest) = ("", .argInvalid)) := by
  refine ⟨by decide, ?_⟩
  intro tok rest
  obtain ⟨l⟩ := tok
  match l with
  | [] => simp [next, leadingDashes]
  | c :: t =>
    by_cases hc : c = '-'
    · subst hc
      match t with
      | [] => simp [next, stripDashes, leadingDashes]
      | d :: t2 =>
        by_cases hd : d = '-'
        · subst hd
          match t2 with
          | [] => simp [next, stripDashes, leadingDashes]
          | e :: t3 =>
            by_cases he : e = '-'
            · subst he
              simp [next, stripDashes, leadingDashes]
            · simp [next, stripDashes, leadingDashes, he]
        · simp [next, stripDashes, leadingDashes, hd]
          rcases t2 with _ | ⟨f, t3⟩ <;> simp
    · simp [next, stripDashes, leadingDashes, hc]

/-- Witness for C8 (amended) at concrete tokens of each shape. -/
theorem C8_amended_classifier_witness :
    next ["abc"] = ("abc", .argCommandOrRaw) ∧
    next ["-a"] = ("a", .argShort) ∧
    next ["-ab"] = ("ab", .argComb) ∧
    next ["--long"] = ("long", .argLong) ∧
    next ["--"] = ("", .argInvalid) ∧
    next ["---x"] = ("", .argInvalid) :=
  ⟨(C8_amended_classifier.2 "abc" []).2.1 rfl (by decide),
   (C8_amended_classifier.2 "-a" []).2.2.1 rfl (by decide),
   (C8_amended_classifier.2 "-ab" []).2.2.2.1 rfl (by decide),
   (C8_amended_classifier.2 "--long" []).2.2.2.2.1 rfl (by decide),
   (C8_amended_classifier.2 "--" []).2.2.2.2.2 (by decide),
   (C8_amended_classifier.2 "---x" []).2.2.2.2.2 (by decide)⟩

/-- C9: with the last registered parameter raw, adding a prefixed
parameter fails; with it moreover optional, adding any raw parameter
(required or not) fails; every such failure returns an error and leaves
the parameter set unchanged. -/
theorem C9_registration_ordering (ps : Params) (lp : Param)
    (long short help : String) (v : Bool)
    (hl : ps.last = some lp) (hraw : lp.raw = true) :
    (∀ req : Bool,
      isErr (ps.addParam long short help req false v).1 = true ∧
      (ps.addParam long short help req false v).2 = ps) ∧
    (lp.required = false → ∀ req : Bool,
      isErr (ps.addParam long short help req true v).1 = true ∧
      (ps.addParam long short help req true v).2 = ps) := by
  constructor
  · intro req
    simp only [Params.addParam, hl, hraw]
    split_ifs <;> simp_all [isErr]
  · intro hopt req
    simp only [Params.addParam, hl, hraw, hopt]
    split_ifs <;> simp_all [isErr]

/-- Witness for C9 on a concrete set whose last parameter is an optional
raw parameter. -/
theorem C9_registration_ordering_witness :
    (isErr (psLastRawOpt.addParam "n" "" "" true false false).1 = true ∧
      (psLastRawOpt.addParam "n" "" "" true false false).2 = psLastRawOpt) ∧
    (isErr (psLastRawOpt.addParam "n" "" "" true true false).1 = true ∧
      (psLastRawOpt.addParam "n" "" "" true true false).2 = psLastRawOpt) :=
  ⟨(C9_registration_ordering psLastRawOpt rawOptParam "n" "" "" false rfl rfl).1 true,
   (C9_registration_ordering psLastRawOpt rawOptParam "n" "" "" false rfl rfl).2 rfl true⟩

/-- C10: an argument list whose first element is the empty string
classifies as `None`, exactly like the empty list, and
`(*Commands).parse` behaves on it exactly as on exhausted input (same
error or success with the same matched chain), rather than treating the
empty token as `Invalid`. -/
theorem C10_empty_token (rest : List String) (cv : Conv) (fuel : Nat)
    (c : List (String × Command)) (m : List Command) :
    next ("" :: rest) = ("", .argNone) ∧
    (parseF cv (fuel + 1) c { args := "" :: rest, matched := m }).map (Except.map St.matched)
      = (parseF cv (fuel + 1) c { args := [], matched := m }).map (Except.map St.matched) := by
  constructor
  · simp [next]
  · rw [parseF, parseF]
    by_cases hm : m.isEmpty <;>
      cases hv : visit m <;> simp [next, hm, hv, Except.map]

end Commandline
